import Mathlib

/-!
Shallow embedding of the statistical engine of `staz.h` (the staz C library),
together with proofs checking the library's specification against the code.

Modeling conventions:

* C `double` values are modeled as exact rationals (`ℚ`); the `NAN` sentinel is
  modeled by `Option ℚ`, with `none` playing the role of NaN.  No statement in
  this development depends on floating-point rounding; rational division by
  zero yields `0` where C would yield an infinity, and no statement below ever
  evaluates such a division.
* The process-wide `errno` slot is threaded explicitly: every embedded
  function returns the `errno` value it leaves behind, mirroring the C control
  flow (reset on entry, overwritten by sub-calls, possibly set before return).
* Functions receiving a mutable `double*` additionally return the caller's
  array as it stands after the call, so in-place mutation (or its absence) is
  visible in the result type.
* `malloc` failure inside `copy_array` is not modeled (allocation is assumed
  to succeed), so `copy_array` fails exactly on an absent/empty input.
* `qsort` with the ascending comparator `comp` is modeled by
  `List.insertionSort (· ≤ ·)`: on a linearly ordered type any two ascending
  sorts of the same multiset are equal, so the model is exact.
* `math.h`'s `sqrt` and the `staz_sqrti` macro (`pow(x, 1.0 / i)`) do not stay
  inside the rationals; they are kept abstract as a pair of function
  parameters (`FloatOps`).  Every theorem below is universally quantified
  over that interpretation, so no result depends on their values; `someOps`
  is an arbitrary interpretation used to instantiate theorems at concrete
  inputs.
* C `int` values are modeled as `ℤ`, `size_t` values as `ℕ`; the cast
  `(size_t)m` of an `int` and the unsigned wraparound of `(size_t)mtype - 1`
  are modeled exactly (mod 2^64).  The `size_t` product `posx * (len + 1)` is
  taken exact: its wraparound would need arrays beyond any addressable size.
-/

namespace Staz

/-- The `staz_error` enumeration (`staz.h` lines 40-49, values 0..7 in source
order).  `errno` only ever holds one of these values in the engine. -/
inductive staz_error where
  | NO_ERROR
  | MEMORY_ALLOCATION_ERROR
  | INVALID_PARAMETERS_ERROR
  | ZERO_DIVISION_ERROR
  | MATH_DOMAIN_ERROR
  | NAN_ERROR
  | RANGEOUT_ERROR
  | UNKNOWN_ERROR
deriving DecidableEq

open staz_error

/-- The irrational operations of `math.h` used by the engine, kept abstract:
`sqrt`, and the `staz_sqrti` macro `pow(x, 1.0 / i)` (`staz.h` line 36). -/
structure FloatOps where
  sqrt : ℚ → ℚ
  sqrti : ℕ → ℚ → ℚ

/-- An arbitrary interpretation of the root operations, used only to
instantiate (universally quantified) theorems at concrete inputs. -/
def someOps : FloatOps := ⟨fun _ => 0, fun _ _ => 0⟩

/-- `staz_mean_type` enumerant (`staz.h` lines 385-393); C enums are `int`s
and the dispatch is over the integer value. -/
def ARITHMETICAL : ℤ := 0

/-- `staz_mean_type` enumerant. -/
def GEOMETRICAL : ℤ := 1

/-- `staz_mean_type` enumerant. -/
def HARMONICAL : ℤ := 2

/-- `staz_mean_type` enumerant. -/
def QUADRATICAL : ℤ := 3

/-- `staz_mean_type` enumerant. -/
def EXTREMES : ℤ := 4

/-- `staz_mean_type` enumerant. -/
def TRIMEAN : ℤ := 5

/-- `staz_mean_type` enumerant. -/
def MIDHINGE : ℤ := 6

/-- `staz_range_type` enumerant (`staz.h` lines 398-402). -/
def R_STANDARD : ℤ := 0

/-- `staz_range_type` enumerant. -/
def R_INTERQUARTILE : ℤ := 1

/-- `staz_range_type` enumerant. -/
def R_PERCENTILE : ℤ := 2

/-- `staz_deviation_type` enumerant (`staz.h` lines 407-413). -/
def D_STANDARD : ℤ := 0

/-- `staz_deviation_type` enumerant.  Declared in the enum but handled by no
case of the `staz_deviation` switch. -/
def D_AVERAGE : ℤ := 1

/-- `staz_deviation_type` enumerant. -/
def D_RELATIVE : ℤ := 2

/-- `staz_deviation_type` enumerant. -/
def D_MAD_AVG : ℤ := 3

/-- `staz_deviation_type` enumerant. -/
def D_MAD_MED : ℤ := 4

/-- A C cast of a real value to an integer type: truncation toward zero. -/
def truncQ (q : ℚ) : ℤ := if 0 ≤ q then ⌊q⌋ else ⌈q⌉

/-- Two's-complement conversion of a C `int` value to `size_t` (64-bit). -/
def size_t_of_int (m : ℤ) : ℕ := (m % (2 ^ 64 : ℤ)).toNat

/-- `copy_array` (`staz.h` lines 114-131): deep copy of the input array.
Allocation is assumed to succeed, so the only failure is an empty input. -/
def copy_array (nums : List ℚ) : Option (List ℚ) × staz_error :=
  if nums = [] then (none, INVALID_PARAMETERS_ERROR)
  else (some nums, NO_ERROR)

/-- The recursion of `_staz_sum_recursive` (`staz.h` lines 149-163), driven by
an explicit `fuel` argument bounding the recursion depth so the definition is
structural; `fuel = end - start` suffices (see `_staz_sum_recursive`).  The
`fuel = 0` case coincides with the C `start == end` base case. -/
def _staz_sum_go (nums : List ℚ) : ℕ → ℕ → ℕ → ℚ
  | 0, s, _ => nums.getD s 0
  | fuel + 1, s, e =>
    if e ≤ s then nums.getD s 0
    else if e - s = 1 then nums.getD s 0 + nums.getD e 0
    else
      let mid := s + (e - s) / 2
      _staz_sum_go nums fuel s mid + _staz_sum_go nums fuel (mid + 1) e

/-- `_staz_sum_recursive` (`staz.h` lines 149-163): pairwise recursive
summation of `nums[start..end]` (both ends inclusive). -/
def _staz_sum_recursive (nums : List ℚ) (s e : ℕ) : ℚ :=
  _staz_sum_go nums (e - s) s e

/-- `staz_sum` (`staz.h` lines 240-250): pairwise summation of the array. -/
def staz_sum (nums : List ℚ) : Option ℚ × staz_error :=
  if nums = [] then (none, INVALID_PARAMETERS_ERROR)
  else (some (_staz_sum_recursive nums 0 (nums.length - 1)), NO_ERROR)

/-- `staz_quadratic_sum` (`staz.h` lines 265-282): left-to-right sum of
squares. -/
def staz_quadratic_sum (nums : List ℚ) : Option ℚ × staz_error :=
  if nums = [] then (none, INVALID_PARAMETERS_ERROR)
  else (some (nums.foldl (fun acc v => acc + v * v) 0), NO_ERROR)

/-- The loop of `staz_prod` (`staz.h` lines 310-313): left-to-right product
with early exit once the running product is exactly 0. -/
def _staz_prod_go : List ℚ → ℚ → ℚ
  | [], acc => acc
  | x :: t, acc =>
    let p := acc * x
    if p = 0 then p else _staz_prod_go t p

/-- `staz_prod` (`staz.h` lines 298-316). -/
def staz_prod (nums : List ℚ) : Option ℚ × staz_error :=
  if nums = [] then (none, INVALID_PARAMETERS_ERROR)
  else (some (_staz_prod_go nums 1), NO_ERROR)

/-- The loop of `_sum_recp` (`staz.h` lines 192-203): Kahan-compensated sum of
reciprocals, aborting with NaN (`none`) at the first element equal to 0.  The
compensation variable `c` is carried exactly as in the C code (in exact
rational arithmetic it stays 0, but the code is mirrored verbatim). -/
def _sum_recp_go : List ℚ → ℚ → ℚ → Option ℚ
  | [], sum, _ => some sum
  | x :: t, sum, c =>
    if x = 0 then none
    else
      let term := 1 / x
      let y := term - c
      let t2 := sum + y
      let c2 := (t2 - sum) - y
      _sum_recp_go t t2 c2

/-- `_sum_recp` (`staz.h` lines 179-206). -/
def _sum_recp (nums : List ℚ) : Option ℚ × staz_error :=
  if nums = [] then (none, INVALID_PARAMETERS_ERROR)
  else
    match _sum_recp_go nums 0 0 with
    | none => (none, ZERO_DIVISION_ERROR)
    | some s => (some s, NO_ERROR)

/-- `staz_min_value` (`staz.h` lines 331-347): running minimum, seeded with
the first element. -/
def staz_min_value (nums : List ℚ) : Option ℚ × staz_error :=
  match nums with
  | [] => (none, INVALID_PARAMETERS_ERROR)
  | x :: t => (some (t.foldl (fun m v => if v < m then v else m) x), NO_ERROR)

/-- `staz_max_value` (`staz.h` lines 362-378): running maximum, seeded with
the first element. -/
def staz_max_value (nums : List ℚ) : Option ℚ × staz_error :=
  match nums with
  | [] => (none, INVALID_PARAMETERS_ERROR)
  | x :: t => (some (t.foldl (fun m v => if v > m then v else m) x), NO_ERROR)

/-- `staz_median` (`staz.h` lines 451-478): sorts a scratch copy of the
caller's array and reads the middle of the sorted order; the caller's array
(second component of the result) is left untouched. -/
def staz_median (nums : List ℚ) : Option ℚ × List ℚ × staz_error :=
  if nums = [] then (none, nums, INVALID_PARAMETERS_ERROR)
  else
    match copy_array nums with
    | (none, e) => (none, nums, e)
    | (some c, _) =>
      let sorted := List.insertionSort (· ≤ ·) c
      let med : ℚ :=
        if nums.length = 1 then sorted.getD 0 0
        else if nums.length % 2 ≠ 0 then sorted.getD (nums.length / 2) 0
        else (sorted.getD (nums.length / 2 - 1) 0 + sorted.getD (nums.length / 2) 0) / 2
      (some med, nums, NO_ERROR)

/-- `staz_quantile` (`staz.h` lines 498-536).  Validation mirrors the source:
`posx < 1` is rejected as `INVALID_PARAMETERS_ERROR`, and the upper check
compares `posx` with the `size_t` expression `(size_t)mtype - 1` (with its
unsigned wraparound modeled exactly).  The continuous rank is
`index = posx * (len + 1) / mtype`; in the two clamp branches the C code
stores the clamped element in a `const int` temporary, so the returned value
passes through `truncQ` (truncation toward zero) exactly as in the source.
The caller's array is never written. -/
def staz_quantile (mtype : ℤ) (posx : ℕ) (nums : List ℚ) :
    Option ℚ × List ℚ × staz_error :=
  if nums = [] ∨ posx < 1 then (none, nums, INVALID_PARAMETERS_ERROR)
  else if posx > (size_t_of_int mtype + 2 ^ 64 - 1) % 2 ^ 64 then
    (none, nums, RANGEOUT_ERROR)
  else
    match copy_array nums with
    | (none, e) => (none, nums, e)
    | (some c, _) =>
      let sorted := List.insertionSort (· ≤ ·) c
      let index : ℚ := ((posx * (nums.length + 1) : ℕ) : ℚ) / (mtype : ℚ)
      let lower : ℕ := (truncQ index).toNat
      if lower ≥ nums.length then
        (some ((truncQ (sorted.getD (nums.length - 1) 0) : ℤ) : ℚ), nums, NO_ERROR)
      else if lower ≤ 0 then
        (some ((truncQ (sorted.getD 0 0) : ℤ) : ℚ), nums, NO_ERROR)
      else
        (some (sorted.getD (lower - 1) 0 +
          (index - (lower : ℚ)) * (sorted.getD lower 0 - sorted.getD (lower - 1) 0)),
         nums, NO_ERROR)

/-- `staz_mean` (`staz.h` lines 558-620): dispatch over the `staz_mean_type`
enumerant (an `int` in C, hence `ℤ` here); any value outside the enumeration
reaches the `default` case.  No branch writes to the caller's array. -/
def staz_mean (ops : FloatOps) (mtype : ℤ) (nums : List ℚ) :
    Option ℚ × staz_error :=
  if nums = [] then (none, INVALID_PARAMETERS_ERROR)
  else if mtype = ARITHMETICAL then
    let r := staz_sum nums
    (r.1.map (fun s => s / (nums.length : ℚ)), r.2)
  else if mtype = GEOMETRICAL then
    let r := staz_prod nums
    (match r.1 with
     | some p =>
       if p = 0 then (some 0, r.2)
       else if p < 0 then (none, MATH_DOMAIN_ERROR)
       else (some (ops.sqrti nums.length p), r.2)
     | none => (none, r.2))
  else if mtype = HARMONICAL then
    let r := _sum_recp nums
    (match r.1 with
     | none => (none, r.2)
     | some s => (some ((nums.length : ℚ) / s), r.2))
  else if mtype = QUADRATICAL then
    let r := staz_quadratic_sum nums
    (r.1.map (fun s => ops.sqrt (s / (nums.length : ℚ))), r.2)
  else if mtype = EXTREMES then
    if nums.length < 2 then (none, INVALID_PARAMETERS_ERROR)
    else
      ((match (staz_min_value nums).1, (staz_max_value nums).1 with
        | some a, some b => some ((a + b) / 2)
        | _, _ => none), NO_ERROR)
  else if mtype = TRIMEAN then
    let q1 := staz_quantile 4 1 nums
    let q2 := staz_quantile 4 2 nums
    let q3 := staz_quantile 4 3 nums
    ((match q1.1, q2.1, q3.1 with
      | some a, some b, some c => some ((a + 2 * b + c) / 4)
      | _, _, _ => none), q3.2.2)
  else if mtype = MIDHINGE then
    let q1 := staz_quantile 4 1 nums
    let q3 := staz_quantile 4 3 nums
    ((match q1.1, q3.1 with
      | some a, some c => some ((a + c) / 2)
      | _, _ => none), q3.2.2)
  else (none, INVALID_PARAMETERS_ERROR)

/-- `staz_variance` (`staz.h` lines 637-659): two-pass population variance.
The loop at lines 653-656 overwrites each element of the caller's array with
its squared deviation from the arithmetic mean; the overwritten array is the
second component of the result.  (For a non-empty sample the arithmetic mean
always exists — see `staz_mean_arith_eq` — so the `getD` default below is
never taken; it mirrors C's unchecked use of the `double`.) -/
def staz_variance (ops : FloatOps) (nums : List ℚ) :
    Option ℚ × List ℚ × staz_error :=
  if nums = [] then (none, nums, INVALID_PARAMETERS_ERROR)
  else
    match (staz_mean ops ARITHMETICAL nums).1 with
    | none => (none, nums, NAN_ERROR)
    | some m =>
      let squared := nums.map (fun v => (v - m) * (v - m))
      let r := staz_mean ops ARITHMETICAL squared
      (r.1, squared, r.2)

/-- The `D_STANDARD` arm of `staz_deviation` (`staz.h` lines 695-704):
square root of the variance, with its NaN check.  The C `D_RELATIVE` arm
re-enters `staz_deviation` with the constant `D_STANDARD`; that call always
executes exactly this body, which is factored out here so the dispatch below
is not recursive. -/
def _staz_deviation_standard (ops : FloatOps) (nums : List ℚ) :
    Option ℚ × List ℚ × staz_error :=
  let r := staz_variance ops nums
  match r.1 with
  | none => (none, r.2.1, NAN_ERROR)
  | some v => (some (ops.sqrt v), r.2.1, r.2.2)

/-- `staz_deviation` (`staz.h` lines 685-743): dispatch over the
`staz_deviation_type` enumerant.  The switch has cases for `D_STANDARD`,
`D_RELATIVE`, `D_MAD_AVG` and `D_MAD_MED` only; `D_AVERAGE` (= 1) and every
value outside the enumeration reach the `default` case.  The `D_MAD_AVG` and
`D_MAD_MED` arms overwrite the caller's array with absolute deviations; the
array after the call is the second component of the result. -/
def staz_deviation (ops : FloatOps) (dtype : ℤ) (nums : List ℚ) :
    Option ℚ × List ℚ × staz_error :=
  if nums = [] then (none, nums, INVALID_PARAMETERS_ERROR)
  else if dtype = D_STANDARD then
    _staz_deviation_standard ops nums
  else if dtype = D_RELATIVE then
    match (staz_mean ops ARITHMETICAL nums).1 with
    | none => (none, nums, NAN_ERROR)
    | some m =>
      if m = 0 then (none, nums, ZERO_DIVISION_ERROR)
      else
        let r := _staz_deviation_standard ops nums
        (r.1.map (fun dv => dv / m), r.2.1, r.2.2)
  else if dtype = D_MAD_AVG then
    let m := (staz_mean ops ARITHMETICAL nums).1.getD 0
    let devs := nums.map (fun v => |v - m|)
    let r := staz_mean ops ARITHMETICAL devs
    (r.1, devs, r.2)
  else if dtype = D_MAD_MED then
    let m := (staz_median nums).1.getD 0
    let devs := nums.map (fun v => |v - m|)
    let r := staz_mean ops ARITHMETICAL devs
    (r.1, devs, r.2)
  else (none, nums, INVALID_PARAMETERS_ERROR)

/-- `staz_range` (`staz.h` lines 797-847): dispatch over the
`staz_range_type` enumerant; unknown values reach the `default` case. -/
def staz_range (rtype : ℤ) (nums : List ℚ) : Option ℚ × staz_error :=
  if nums = [] then (none, INVALID_PARAMETERS_ERROR)
  else if rtype = R_STANDARD then
    match (staz_max_value nums).1, (staz_min_value nums).1 with
    | some mx, some mn => (some (mx - mn), NO_ERROR)
    | _, _ => (none, NAN_ERROR)
  else if rtype = R_INTERQUARTILE then
    match (staz_quantile 4 1 nums).1, (staz_quantile 4 3 nums).1 with
    | some a, some b => (some (b - a), NO_ERROR)
    | _, _ => (none, NAN_ERROR)
  else if rtype = R_PERCENTILE then
    match (staz_quantile 100 10 nums).1, (staz_quantile 100 90 nums).1 with
    | some a, some b => (some (b - a), NO_ERROR)
    | _, _ => (none, NAN_ERROR)
  else (none, INVALID_PARAMETERS_ERROR)

/-- `staz_line_equation` (`staz.h` lines 431-434): slope and intercept; an
all-NaN pair signals failure. -/
structure staz_line_equation where
  m : Option ℚ
  q : Option ℚ
deriving DecidableEq

/-- `staz_linear_regression` (`staz.h` lines 1006-1038).  The C function takes
a single `len` used for both arrays; here `len` is `x.length` and the loop
over `x[i] * y[i]` is modeled by `zip` (theorems assume equal lengths,
matching the documented call contract).  `staz_sum` of a non-empty array
always yields a value (see `staz_sum_eq`), so the `getD` defaults mirror C's
unchecked use of the sums. -/
def staz_linear_regression (x y : List ℚ) : staz_line_equation × staz_error :=
  if x = [] ∨ y = [] then (⟨none, none⟩, INVALID_PARAMETERS_ERROR)
  else
    let sum_x := (staz_sum x).1.getD 0
    let sum_y := (staz_sum y).1.getD 0
    let sum_xy := (x.zip y).foldl (fun acc p => acc + p.1 * p.2) 0
    let sum_x_sq := x.foldl (fun acc v => acc + v * v) 0
    let d_of_m := (x.length : ℚ) * sum_x_sq - sum_x * sum_x
    if d_of_m = 0 then (⟨none, none⟩, ZERO_DIVISION_ERROR)
    else
      let m := ((x.length : ℚ) * sum_xy - sum_x * sum_y) / d_of_m
      let q := (sum_y - m * sum_x) / (x.length : ℚ)
      (⟨some m, some q⟩, NO_ERROR)

/-- Modelled from the spec: the value the specification claims for
`D_MAD_MED` — the median of the absolute deviations from the sample median
(two median computations, the second not reusing the first).  Stated here
only to be compared with `staz_deviation`. -/
def spec_mad_med (nums : List ℚ) : Option ℚ :=
  let m := (staz_median nums).1.getD 0
  (staz_median (nums.map (fun v => |v - m|))).1

/-! ### Helper lemmas about the accumulators -/

/-- The pairwise recursion computes the interval sum, for any sufficient
fuel. -/
theorem _staz_sum_go_eq (l : List ℚ) :
    ∀ (fuel s e : ℕ), e - s ≤ fuel → s ≤ e →
      _staz_sum_go l fuel s e = ∑ i in Finset.Ico s (e + 1), l.getD i 0 := by
  intro fuel
  induction fuel with
  | zero =>
    intro s e h1 h2
    have he : e = s := by omega
    subst he
    rw [_staz_sum_go, Finset.sum_Ico_succ_top le_rfl, Finset.Ico_self,
      Finset.sum_empty, zero_add]
  | succ n ih =>
    intro s e h1 h2
    rw [_staz_sum_go]
    by_cases hes : e ≤ s
    · have he : e = s := by omega
      subst he
      rw [if_pos hes, Finset.sum_Ico_succ_top le_rfl, Finset.Ico_self,
        Finset.sum_empty, zero_add]
    · rw [if_neg hes]
      by_cases h1' : e - s = 1
      · rw [if_pos h1']
        have he : e = s + 1 := by omega
        subst he
        rw [Finset.sum_Ico_succ_top (by omega), Finset.sum_Ico_succ_top le_rfl,
          Finset.Ico_self, Finset.sum_empty, zero_add]
      · rw [if_neg h1']
        have hd2 : (e - s) / 2 < e - s := Nat.div_lt_self (by omega) (by omega)
        have hd1 : 1 ≤ (e - s) / 2 := (Nat.le_div_iff_mul_le (by norm_num)).2 (by omega)
        show _staz_sum_go l n s (s + (e - s) / 2) +
            _staz_sum_go l n (s + (e - s) / 2 + 1) e = _
        rw [ih s (s + (e - s) / 2) (by omega) (by omega),
          ih (s + (e - s) / 2 + 1) e (by omega) (by omega),
          Finset.sum_Ico_consecutive _ (by omega) (by omega)]

/-- Summing `getD` over the index range of a list gives the list sum. -/
theorem sum_range_getD : ∀ (l : List ℚ),
    ∑ i in Finset.range l.length, l.getD i 0 = l.sum := by
  intro l
  induction l with
  | nil => simp
  | cons a t ih =>
    rw [List.length_cons, Finset.sum_range_succ']
    simp only [List.getD_cons_succ, List.getD_cons_zero]
    rw [ih, List.sum_cons, add_comm]

/-- `staz_sum` of a non-empty sample is its exact sum (pairwise summation
introduces no error in exact arithmetic). -/
theorem staz_sum_eq (l : List ℚ) (h : l ≠ []) :
    staz_sum l = (some l.sum, staz_error.NO_ERROR) := by
  have hlen : 1 ≤ l.length := List.length_pos.mpr h
  rw [staz_sum, if_neg h, _staz_sum_recursive,
    _staz_sum_go_eq l (l.length - 1 - 0) 0 (l.length - 1) (le_refl _) (by omega)]
  have : l.length - 1 + 1 = l.length := by omega
  rw [this, ← Finset.range_eq_Ico, sum_range_getD]

/-- Folding `acc + f v` over a list adds the sum of the mapped list. -/
theorem foldl_add_map {α : Type} (f : α → ℚ) :
    ∀ (l : List α) (a : ℚ),
      l.foldl (fun acc v => acc + f v) a = a + (l.map f).sum := by
  intro l
  induction l with
  | nil => intro a; simp
  | cons x t ih =>
    intro a
    rw [List.foldl_cons, ih, List.map_cons, List.sum_cons, add_assoc]

/-- The Kahan reciprocal loop aborts (NaN) as soon as the list contains a
zero, whatever the accumulator state. -/
theorem _sum_recp_go_of_mem_zero :
    ∀ (l : List ℚ) (s c : ℚ), (0 : ℚ) ∈ l → _sum_recp_go l s c = none := by
  intro l
  induction l with
  | nil => intro s c h; simp at h
  | cons x t ih =>
    intro s c h
    rw [_sum_recp_go]
    by_cases hx : x = 0
    · rw [if_pos hx]
    · rw [if_neg hx]
      rcases List.mem_cons.mp h with h0 | h0
      · exact absurd h0.symm hx
      · exact ih _ _ h0

/-- `staz_prod` of a non-empty sample succeeds. -/
theorem staz_prod_eq (l : List ℚ) (h : l ≠ []) :
    staz_prod l = (some (_staz_prod_go l 1), staz_error.NO_ERROR) := by
  rw [staz_prod, if_neg h]

/-! ### Helper lemmas about the composed operations -/

/-- The arithmetic-mean branch of `staz_mean` computes the exact mean and
leaves `errno` clear, for every non-empty sample. -/
theorem staz_mean_arith_eq (ops : FloatOps) (l : List ℚ) (h : l ≠ []) :
    staz_mean ops ARITHMETICAL l =
      (some (l.sum / (l.length : ℚ)), staz_error.NO_ERROR) := by
  rw [staz_mean, if_neg h, if_pos rfl, staz_sum_eq l h]
  rfl

/-- `staz_variance` of a non-empty sample: the result value, the overwritten
array and the final `errno`. -/
theorem staz_variance_eq (ops : FloatOps) (l : List ℚ) (h : l ≠ []) :
    staz_variance ops l =
      (some ((l.map (fun v =>
          (v - l.sum / (l.length : ℚ)) * (v - l.sum / (l.length : ℚ)))).sum /
            (l.length : ℚ)),
       l.map (fun v =>
          (v - l.sum / (l.length : ℚ)) * (v - l.sum / (l.length : ℚ))),
       staz_error.NO_ERROR) := by
  have hne : l.map (fun v =>
      (v - l.sum / (l.length : ℚ)) * (v - l.sum / (l.length : ℚ))) ≠ [] := by
    simpa using h
  rw [staz_variance, if_neg h, staz_mean_arith_eq ops l h]
  simp only [staz_mean_arith_eq ops _ hne, List.length_map]

/-- The `size_t` expression `(size_t)mtype - 1` evaluated for an in-range
division: no wraparound occurs. -/
theorem quantile_bound_eq {d : ℤ} (h2 : 2 ≤ d) (h3 : d < 2 ^ 31) :
    (size_t_of_int d + 2 ^ 64 - 1) % 2 ^ 64 = d.toNat - 1 := by
  have hd : size_t_of_int d = d.toNat := by
    rw [size_t_of_int, Int.emod_eq_of_lt (by omega) (by norm_num; omega)]
  rw [hd]
  have h4 : d.toNat < 2 ^ 31 := by omega
  norm_num at h4 ⊢
  omega

/-- For a valid division and position on a non-empty sample, `staz_quantile`
returns a value and leaves `errno` clear. -/
theorem staz_quantile_valid (d : ℤ) (p : ℕ) (l : List ℚ) (hl : l ≠ [])
    (h2 : 2 ≤ d) (h3 : d < 2 ^ 31) (hp1 : 1 ≤ p) (hp2 : (p : ℤ) ≤ d - 1) :
    ∃ v, staz_quantile d p l = (some v, l, staz_error.NO_ERROR) := by
  have hg1 : ¬(l = [] ∨ p < 1) := by
    push_neg
    exact ⟨hl, hp1⟩
  have hg2 : ¬(p > (size_t_of_int d + 2 ^ 64 - 1) % 2 ^ 64) := by
    rw [quantile_bound_eq h2 h3]
    omega
  rw [staz_quantile, if_neg hg1, if_neg hg2, copy_array, if_neg hl]
  simp only
  split_ifs <;> exact ⟨_, rfl⟩

/-- `staz_median` read off any sorted permutation of the sample: the code
sorts a copy and picks the middle of the sorted order. -/
theorem staz_median_eq_sorted (l s : List ℚ) (h : l ≠ [])
    (hp : s.Perm l) (hs : s.Sorted (· ≤ ·)) :
    staz_median l =
      (some (if l.length = 1 then s.getD 0 0
             else if l.length % 2 = 1 then s.getD (l.length / 2) 0
             else (s.getD (l.length / 2 - 1) 0 + s.getD (l.length / 2) 0) / 2),
       l, staz_error.NO_ERROR) := by
  have hsort : s = List.insertionSort (· ≤ ·) l :=
    List.eq_of_perm_of_sorted (hp.trans (List.perm_insertionSort _ l).symm) hs
      (List.sorted_insertionSort _ l)
  rw [staz_median, if_neg h, copy_array, if_neg h]
  simp only [← hsort]
  rcases Nat.mod_two_eq_zero_or_one l.length with h2 | h2
  · by_cases h1 : l.length = 1
    · omega
    · simp [h1, h2]
  · by_cases h1 : l.length = 1
    · simp [h1]
    · simp [h1, h2]

/-! ### Claim theorems -/

/-- C1 (counterexample): on the sample `[1, 2, 10]` the `D_MAD_MED` branch of
`staz_deviation` returns `3`, the arithmetic mean of the absolute deviations
`[1, 0, 8]` from the median `2`, while the value the claim prescribes — the
median of those absolute deviations (`spec_mad_med`) — is `1`.  The claim is
therefore false on the code. -/
theorem staz_mad_med_not_median_cex :
    (staz_deviation someOps D_MAD_MED [1, 2, 10]).1 = some 3 ∧
    spec_mad_med [1, 2, 10] = some 1 ∧
    some (3 : ℚ) ≠ some (1 : ℚ) := by
  refine ⟨?_, ?_, by norm_num⟩
  · norm_num +decide [staz_deviation, D_MAD_MED, D_STANDARD, D_RELATIVE, D_MAD_AVG,
      staz_median, copy_array, List.insertionSort, List.orderedInsert,
      staz_mean, ARITHMETICAL, staz_sum, _staz_sum_recursive, _staz_sum_go, List.getD]
  · norm_num +decide [spec_mad_med, staz_median, copy_array,
      List.insertionSort, List.orderedInsert]

/-- C1 (amended): for every non-empty sample, the deviation operation with
kind `D_MAD_MED` returns the arithmetic mean (not the median) of the absolute
deviations of the elements from the sample median: one median computation
followed by an arithmetic mean. -/
theorem staz_mad_med_is_mean_abs_dev :
    ∀ (ops : FloatOps) (l : List ℚ), l ≠ [] →
      (staz_deviation ops D_MAD_MED l).1 =
        some ((l.map (fun v => |v - (staz_median l).1.getD 0|)).sum /
          (l.length : ℚ)) := by
  intro ops l h
  have hne : l.map (fun v => |v - (staz_median l).1.getD 0|) ≠ [] := by
    simpa using h
  rw [staz_deviation, if_neg h, if_neg (by decide : ¬(D_MAD_MED = D_STANDARD)),
    if_neg (by decide : ¬(D_MAD_MED = D_RELATIVE)),
    if_neg (by decide : ¬(D_MAD_MED = D_MAD_AVG)), if_pos rfl]
  simp [staz_mean_arith_eq ops _ hne, List.length_map]

/-- C1 (witness): the amended claim evaluated on `[2, 4]` — median `3`,
absolute deviations `[1, 1]`, mean `1`. -/
theorem staz_mad_med_is_mean_abs_dev_witness :
    (staz_deviation someOps D_MAD_MED [2, 4]).1 = some 1 := by
  have h := staz_mad_med_is_mean_abs_dev someOps [2, 4] (by decide)
  norm_num +decide [staz_median, copy_array, List.insertionSort, List.orderedInsert] at h
  exact h

/-- C2: for every non-empty sample, after `staz_variance` returns, each
element of the caller's array has been replaced by the square of the original
element minus the original arithmetic mean; concretely, `[1, 3]` is left as
`[1, 1]`, so the caller's input values are not preserved across the call. -/
theorem staz_variance_overwrites_squares :
    (∀ (ops : FloatOps) (l : List ℚ), l ≠ [] →
        (staz_variance ops l).2.1 =
          l.map (fun v => (v - l.sum / (l.length : ℚ)) ^ 2)) ∧
    (staz_variance someOps [1, 3]).2.1 = [1, 1] ∧ ([1, 1] : List ℚ) ≠ [1, 3] := by
  refine ⟨fun ops l h => ?_, ?_, by norm_num⟩
  · rw [staz_variance_eq ops l h]
    simp [pow_two]
  · norm_num +decide [staz_variance, staz_mean, ARITHMETICAL, staz_sum,
      _staz_sum_recursive, _staz_sum_go, List.getD]

/-- C2 (witness): the frame effect evaluated on `[1, 2, 3]` (mean `2`), whose
buffer is left as `[1, 0, 1]`. -/
theorem staz_variance_overwrites_squares_witness :
    (staz_variance someOps [1, 2, 3]).2.1 = [1, 0, 1] := by
  have h := staz_variance_overwrites_squares.1 someOps [1, 2, 3] (by decide)
  norm_num [List.sum_cons, List.sum_nil] at h
  exact h

/-- C3 (code bug): the clamp branches of `staz_quantile` pass the clamped
element through a `const int` temporary (`staz.h` lines 523 and 528).  On
`[0.5, 2.5]` with division 4 and position 3 the implied lower index is 2 ≥ n,
so the claim says the maximum element `2.5` is returned — the code returns
its truncation `2`; with position 1 the lower index is 0, the claim says the
minimum `0.5` — the code returns `0`. -/
theorem staz_quantile_clamp_truncation :
    (staz_quantile 4 3 [1 / 2, 5 / 2]).1 = some 2 ∧
    (staz_max_value [1 / 2, 5 / 2]).1 = some (5 / 2) ∧
    ¬((2 : ℚ) = 5 / 2) ∧
    (staz_quantile 4 1 [1 / 2, 5 / 2]).1 = some 0 ∧
    (staz_min_value [1 / 2, 5 / 2]).1 = some (1 / 2) ∧
    ¬((0 : ℚ) = 1 / 2) := by
  refine ⟨?_, ?_, by norm_num, ?_, ?_, by norm_num⟩
  · norm_num +decide [staz_quantile, copy_array, size_t_of_int, truncQ, Int.toNat_ofNat,
      List.insertionSort, List.orderedInsert]
  · norm_num +decide [staz_max_value]
  · norm_num +decide [staz_quantile, copy_array, size_t_of_int, truncQ, Int.toNat_ofNat,
      List.insertionSort, List.orderedInsert]
  · norm_num +decide [staz_min_value]

/-- C4 (counterexample): on `[1, 2, 3, 4]` the quantile with division 4 and
position 1 computes `index = 1·5/4 = 1.25` and interpolates to `1.25`, not
the claimed `1.5`. -/
theorem staz_quartile_1234_cex :
    (staz_quantile 4 1 [1, 2, 3, 4]).1 = some (5 / 4) ∧ ¬((5 : ℚ) / 4 = 3 / 2) := by
  constructor
  · norm_num +decide [staz_quantile, copy_array, size_t_of_int, truncQ, Int.toNat_ofNat,
      List.insertionSort, List.orderedInsert]
  · norm_num

/-- C4 (amended): on the sample `[1, 2, 3, 4]`, the quantile operation with
division 4 and position 1 returns `1.25`, and with division 4 and position 3
returns `3.75` — the values of the code's own `index = p·(n+1)/d`
interpolation convention, not the claimed `1.5` and `3.5`. -/
theorem staz_quartile_1234_values :
    (staz_quantile 4 1 [1, 2, 3, 4]).1 = some (5 / 4) ∧
    (staz_quantile 4 3 [1, 2, 3, 4]).1 = some (15 / 4) := by
  constructor <;>
    norm_num +decide [staz_quantile, copy_array, size_t_of_int, truncQ, Int.toNat_ofNat,
      show (3 : ℤ).toNat = 3 from rfl, List.insertionSort, List.orderedInsert]

/-- C5 (counterexample): the out-of-range position `p = 0` (with division 4,
on the non-empty sample `[1]`) fails with `INVALID_PARAMETERS_ERROR`, not
with the claimed `RANGEOUT_ERROR`. -/
theorem staz_quantile_p0_invalid_cex :
    staz_quantile 4 0 [1] = (none, [1], INVALID_PARAMETERS_ERROR) ∧
    INVALID_PARAMETERS_ERROR ≠ RANGEOUT_ERROR :=
  ⟨by norm_num +decide [staz_quantile], by decide⟩

/-- C5 (amended): for every non-empty sample and valid division `2 ≤ d` (in
`int` range), a position below 1 fails with `INVALID_PARAMETERS_ERROR` and
NaN, a position above `d - 1` fails with `RANGEOUT_ERROR` and NaN, and every
position inside `[1, d-1]` succeeds with a value and a clear `errno`. -/
theorem staz_quantile_position_errors :
    ∀ (d : ℤ) (p : ℕ) (l : List ℚ), l ≠ [] → 2 ≤ d → d < 2 ^ 31 →
      ((p < 1 → staz_quantile d p l = (none, l, INVALID_PARAMETERS_ERROR)) ∧
       ((d : ℤ) - 1 < (p : ℤ) → staz_quantile d p l = (none, l, RANGEOUT_ERROR)) ∧
       (1 ≤ p → (p : ℤ) ≤ (d : ℤ) - 1 →
         (staz_quantile d p l).2.2 = NO_ERROR ∧ (staz_quantile d p l).1 ≠ none)) := by
  intro d p l hl h2 h3
  refine ⟨fun hp => ?_, fun hp => ?_, fun hp1 hp2 => ?_⟩
  · rw [staz_quantile, if_pos (Or.inr hp)]
  · have hg1 : ¬(l = [] ∨ p < 1) := by
      push_neg
      exact ⟨hl, by omega⟩
    have hg2 : p > (size_t_of_int d + 2 ^ 64 - 1) % 2 ^ 64 := by
      rw [quantile_bound_eq h2 h3]
      omega
    rw [staz_quantile, if_neg hg1, if_pos hg2]
  · obtain ⟨v, hv⟩ := staz_quantile_valid d p l hl h2 h3 hp1 hp2
    rw [hv]
    exact ⟨rfl, by simp⟩

/-- C5 (witness): the three position regimes evaluated with division 4 on the
sample `[2]`. -/
theorem staz_quantile_position_errors_witness :
    staz_quantile 4 0 [2] = (none, [2], INVALID_PARAMETERS_ERROR) ∧
    staz_quantile 4 9 [2] = (none, [2], RANGEOUT_ERROR) ∧
    (staz_quantile 4 2 [2]).2.2 = NO_ERROR := by
  have h0 := staz_quantile_position_errors 4 0 [2] (by decide) (by norm_num) (by norm_num)
  have h9 := staz_quantile_position_errors 4 9 [2] (by decide) (by norm_num) (by norm_num)
  have hv := staz_quantile_position_errors 4 2 [2] (by decide) (by norm_num) (by norm_num)
  exact ⟨h0.1 (by norm_num), h9.2.1 (by norm_num), (hv.2.2 (by norm_num) (by norm_num)).1⟩

/-- C6 (counterexample): `D_AVERAGE` is a declared enumerant of
`staz_deviation_type`, yet on the valid one-element sample `[1]` it yields the
NaN sentinel with `INVALID_PARAMETERS_ERROR` — the unknown-value path — while
the implemented kind `D_STANDARD` succeeds on the same sample.  Not every
declared deviation enumerant maps to an algorithm. -/
theorem staz_deviation_d_average_cex :
    staz_deviation someOps D_AVERAGE [1] = (none, [1], INVALID_PARAMETERS_ERROR) ∧
    (staz_deviation someOps D_STANDARD [1]).2.2 ≠ INVALID_PARAMETERS_ERROR := by
  constructor
  · norm_num +decide [staz_deviation, D_AVERAGE, D_STANDARD, D_RELATIVE, D_MAD_AVG, D_MAD_MED]
  · norm_num +decide [staz_deviation, _staz_deviation_standard, staz_variance, D_STANDARD,
      staz_mean, ARITHMETICAL, staz_sum, _staz_sum_recursive, _staz_sum_go, List.getD, someOps]

/-- C6 (amended): every declared mean-kind and range-kind enumerant, and
every deviation-kind enumerant except `D_AVERAGE`, selects its own
computation (its dispatch branch never reports `INVALID_PARAMETERS_ERROR` on
samples satisfying the family's length precondition); `D_AVERAGE` and every
value outside the enumerations yield the reported `INVALID_PARAMETERS_ERROR`
and the NaN sentinel — the dispatches are total functions, never a crash. -/
theorem staz_dispatch_enumerants :
    (∀ (ops : FloatOps) (c : ℤ) (l : List ℚ), 2 ≤ l.length →
        (c = ARITHMETICAL ∨ c = GEOMETRICAL ∨ c = HARMONICAL ∨ c = QUADRATICAL ∨
         c = EXTREMES ∨ c = TRIMEAN ∨ c = MIDHINGE) →
        (staz_mean ops c l).2 ≠ INVALID_PARAMETERS_ERROR) ∧
    (∀ (ops : FloatOps) (c : ℤ) (l : List ℚ),
        ¬(c = ARITHMETICAL ∨ c = GEOMETRICAL ∨ c = HARMONICAL ∨ c = QUADRATICAL ∨
          c = EXTREMES ∨ c = TRIMEAN ∨ c = MIDHINGE) →
        staz_mean ops c l = (none, INVALID_PARAMETERS_ERROR)) ∧
    (∀ (c : ℤ) (l : List ℚ), l ≠ [] →
        (c = R_STANDARD ∨ c = R_INTERQUARTILE ∨ c = R_PERCENTILE) →
        (staz_range c l).2 ≠ INVALID_PARAMETERS_ERROR) ∧
    (∀ (c : ℤ) (l : List ℚ),
        ¬(c = R_STANDARD ∨ c = R_INTERQUARTILE ∨ c = R_PERCENTILE) →
        staz_range c l = (none, INVALID_PARAMETERS_ERROR)) ∧
    (∀ (ops : FloatOps) (c : ℤ) (l : List ℚ), l ≠ [] →
        (c = D_STANDARD ∨ c = D_RELATIVE ∨ c = D_MAD_AVG ∨ c = D_MAD_MED) →
        (staz_deviation ops c l).2.2 ≠ INVALID_PARAMETERS_ERROR) ∧
    (∀ (ops : FloatOps) (c : ℤ) (l : List ℚ),
        ¬(c = D_STANDARD ∨ c = D_RELATIVE ∨ c = D_MAD_AVG ∨ c = D_MAD_MED) →
        staz_deviation ops c l = (none, l, INVALID_PARAMETERS_ERROR)) := by
  refine ⟨?_, ?_, ?_, ?_, ?_, ?_⟩
  · -- every declared mean enumerant selects its own computation
    intro ops c l hl hc
    have hne : l ≠ [] := by
      intro he
      subst he
      simp at hl
    rcases hc with rfl | rfl | rfl | rfl | rfl | rfl | rfl
    · rw [staz_mean_arith_eq ops l hne]
      simp
    · rw [staz_mean, if_neg hne, if_neg (by decide : ¬(GEOMETRICAL = ARITHMETICAL)),
        if_pos rfl, staz_prod_eq l hne]
      simp only
      split_ifs <;> simp
    · rw [staz_mean, if_neg hne, if_neg (by decide : ¬(HARMONICAL = ARITHMETICAL)),
        if_neg (by decide : ¬(HARMONICAL = GEOMETRICAL)), if_pos rfl,
        _sum_recp, if_neg hne]
      rcases hr : _sum_recp_go l 0 0 with _ | s <;> simp
    · rw [staz_mean, if_neg hne, if_neg (by decide : ¬(QUADRATICAL = ARITHMETICAL)),
        if_neg (by decide : ¬(QUADRATICAL = GEOMETRICAL)),
        if_neg (by decide : ¬(QUADRATICAL = HARMONICAL)), if_pos rfl,
        staz_quadratic_sum, if_neg hne]
      simp
    · rw [staz_mean, if_neg hne, if_neg (by decide : ¬(EXTREMES = ARITHMETICAL)),
        if_neg (by decide : ¬(EXTREMES = GEOMETRICAL)),
        if_neg (by decide : ¬(EXTREMES = HARMONICAL)),
        if_neg (by decide : ¬(EXTREMES = QUADRATICAL)), if_pos rfl,
        if_neg (not_lt.mpr hl)]
      simp
    · obtain ⟨v3, h3⟩ := staz_quantile_valid 4 3 l hne (by norm_num) (by norm_num)
        (by norm_num) (by norm_num)
      rw [staz_mean, if_neg hne, if_neg (by decide : ¬(TRIMEAN = ARITHMETICAL)),
        if_neg (by decide : ¬(TRIMEAN = GEOMETRICAL)),
        if_neg (by decide : ¬(TRIMEAN = HARMONICAL)),
        if_neg (by decide : ¬(TRIMEAN = QUADRATICAL)),
        if_neg (by decide : ¬(TRIMEAN = EXTREMES)), if_pos rfl]
      simp only [h3]
      simp
    · obtain ⟨v3, h3⟩ := staz_quantile_valid 4 3 l hne (by norm_num) (by norm_num)
        (by norm_num) (by norm_num)
      rw [staz_mean, if_neg hne, if_neg (by decide : ¬(MIDHINGE = ARITHMETICAL)),
        if_neg (by decide : ¬(MIDHINGE = GEOMETRICAL)),
        if_neg (by decide : ¬(MIDHINGE = HARMONICAL)),
        if_neg (by decide : ¬(MIDHINGE = QUADRATICAL)),
        if_neg (by decide : ¬(MIDHINGE = EXTREMES)),
        if_neg (by decide : ¬(MIDHINGE = TRIMEAN)), if_pos rfl]
      simp only [h3]
      simp
  · -- unknown mean kinds reach the default case
    intro ops c l hc
    push_neg at hc
    obtain ⟨h0, h1, h2, h3, h4, h5, h6⟩ := hc
    by_cases hl : l = []
    · rw [staz_mean, if_pos hl]
    · rw [staz_mean, if_neg hl, if_neg h0, if_neg h1, if_neg h2, if_neg h3,
        if_neg h4, if_neg h5, if_neg h6]
  · -- every declared range enumerant selects its own computation
    intro c l hl hc
    rcases hc with rfl | rfl | rfl
    · cases l with
      | nil => exact absurd rfl hl
      | cons x t =>
        rw [staz_range, if_neg hl, if_pos rfl]
        simp [staz_max_value, staz_min_value]
    · obtain ⟨v1, h1⟩ := staz_quantile_valid 4 1 l hl (by norm_num) (by norm_num)
        (by norm_num) (by norm_num)
      obtain ⟨v3, h3⟩ := staz_quantile_valid 4 3 l hl (by norm_num) (by norm_num)
        (by norm_num) (by norm_num)
      rw [staz_range, if_neg hl, if_neg (by decide : ¬(R_INTERQUARTILE = R_STANDARD)),
        if_pos rfl, h1, h3]
      simp
    · obtain ⟨v1, h1⟩ := staz_quantile_valid 100 10 l hl (by norm_num) (by norm_num)
        (by norm_num) (by norm_num)
      obtain ⟨v3, h3⟩ := staz_quantile_valid 100 90 l hl (by norm_num) (by norm_num)
        (by norm_num) (by norm_num)
      rw [staz_range, if_neg hl, if_neg (by decide : ¬(R_PERCENTILE = R_STANDARD)),
        if_neg (by decide : ¬(R_PERCENTILE = R_INTERQUARTILE)), if_pos rfl, h1, h3]
      simp
  · -- unknown range kinds reach the default case
    intro c l hc
    push_neg at hc
    obtain ⟨h0, h1, h2⟩ := hc
    by_cases hl : l = []
    · rw [staz_range, if_pos hl]
    · rw [staz_range, if_neg hl, if_neg h0, if_neg h1, if_neg h2]
  · -- every implemented deviation enumerant selects its own computation
    intro ops c l hl hc
    rcases hc with rfl | rfl | rfl | rfl
    · rw [staz_deviation, if_neg hl, if_pos rfl, _staz_deviation_standard,
        staz_variance_eq ops l hl]
      simp
    · rw [staz_deviation, if_neg hl, if_neg (by decide : ¬(D_RELATIVE = D_STANDARD)),
        if_pos rfl, staz_mean_arith_eq ops l hl]
      simp only
      split_ifs with hm
      · simp
      · rw [_staz_deviation_standard, staz_variance_eq ops l hl]
        simp
    · have hne2 : l.map
          (fun v => |v - (staz_mean ops ARITHMETICAL l).1.getD 0|) ≠ [] := by
        simpa using hl
      rw [staz_deviation, if_neg hl, if_neg (by decide : ¬(D_MAD_AVG = D_STANDARD)),
        if_neg (by decide : ¬(D_MAD_AVG = D_RELATIVE)), if_pos rfl]
      simp only [staz_mean_arith_eq ops _ hne2]
      simp
    · have hne2 : l.map (fun v => |v - (staz_median l).1.getD 0|) ≠ [] := by
        simpa using hl
      rw [staz_deviation, if_neg hl, if_neg (by decide : ¬(D_MAD_MED = D_STANDARD)),
        if_neg (by decide : ¬(D_MAD_MED = D_RELATIVE)),
        if_neg (by decide : ¬(D_MAD_MED = D_MAD_AVG)), if_pos rfl]
      simp only [staz_mean_arith_eq ops _ hne2]
      simp
  · -- D_AVERAGE and unknown deviation kinds reach the default case
    intro ops c l hc
    push_neg at hc
    obtain ⟨h0, h2, h3, h4⟩ := hc
    by_cases hl : l = []
    · rw [staz_deviation, if_pos hl]
    · rw [staz_deviation, if_neg hl, if_neg h0, if_neg h2, if_neg h3, if_neg h4]

/-- C6 (witness): the dispatch behaviour at concrete inputs — the unknown
code 9 hits the default case of all three dispatches, while declared
(implemented) enumerants select a computation. -/
theorem staz_dispatch_enumerants_witness :
    staz_mean someOps 9 [1] = (none, INVALID_PARAMETERS_ERROR) ∧
    staz_range 9 [1] = (none, INVALID_PARAMETERS_ERROR) ∧
    staz_deviation someOps 9 [1] = (none, [1], INVALID_PARAMETERS_ERROR) ∧
    (staz_mean someOps ARITHMETICAL [1, 2]).2 ≠ INVALID_PARAMETERS_ERROR ∧
    (staz_range R_STANDARD [1]).2 ≠ INVALID_PARAMETERS_ERROR ∧
    (staz_deviation someOps D_MAD_MED [1]).2.2 ≠ INVALID_PARAMETERS_ERROR :=
  ⟨staz_dispatch_enumerants.2.1 someOps 9 [1] (by decide),
   staz_dispatch_enumerants.2.2.2.1 9 [1] (by decide),
   staz_dispatch_enumerants.2.2.2.2.2 someOps 9 [1] (by decide),
   staz_dispatch_enumerants.1 someOps ARITHMETICAL [1, 2] (by decide) (by decide),
   staz_dispatch_enumerants.2.2.1 R_STANDARD [1] (by decide) (by decide),
   staz_dispatch_enumerants.2.2.2.2.1 someOps D_MAD_MED [1] (by decide) (by decide)⟩

/-- C7: for every non-empty sample, the median of an odd-length sample is the
element at index `⌊n/2⌋` of the sorted order, the median of an even-length
sample is the mean of the two elements adjacent to the midpoint, and the
median of a one-element sample is that element; in particular
`median [1,2,3,4] = 2.5`, `median [5] = 5` and `median [3,1,2] = 2`. -/
theorem staz_median_spec :
    (∀ (l s : List ℚ), l ≠ [] → s.Perm l → s.Sorted (· ≤ ·) →
        (staz_median l).1 =
          some (if l.length = 1 then s.getD 0 0
                else if l.length % 2 = 1 then s.getD (l.length / 2) 0
                else (s.getD (l.length / 2 - 1) 0 + s.getD (l.length / 2) 0) / 2)) ∧
    (staz_median [1, 2, 3, 4]).1 = some (5 / 2) ∧
    (staz_median [5]).1 = some 5 ∧
    (staz_median [3, 1, 2]).1 = some 2 := by
  refine ⟨fun l s h hp hs => ?_, ?_, ?_, ?_⟩
  · rw [staz_median_eq_sorted l s h hp hs]
  · norm_num +decide [staz_median, copy_array, List.insertionSort, List.orderedInsert]
  · norm_num +decide [staz_median, copy_array, List.insertionSort, List.orderedInsert]
  · norm_num +decide [staz_median, copy_array, List.insertionSort, List.orderedInsert]

/-- C7 (witness): the sorted-order characterization applied to the unsorted
sample `[3, 1, 2]` with sorted permutation `[1, 2, 3]`. -/
theorem staz_median_spec_witness : (staz_median [3, 1, 2]).1 = some 2 := by
  have h := staz_median_spec.1 [3, 1, 2] [1, 2, 3] (by decide) (by decide) (by decide)
  simpa using h

/-- C8: the harmonic mean of any sample containing an element exactly equal
to 0 fails with `ZERO_DIVISION_ERROR` and returns NaN — no partial result is
returned and the zero is never skipped. -/
theorem staz_harmonic_zero_division :
    ∀ (ops : FloatOps) (l : List ℚ), (0 : ℚ) ∈ l →
      staz_mean ops HARMONICAL l = (none, ZERO_DIVISION_ERROR) := by
  intro ops l h
  have hl : l ≠ [] := List.ne_nil_of_mem h
  have hr : _sum_recp l = (none, ZERO_DIVISION_ERROR) := by
    rw [_sum_recp, if_neg hl, _sum_recp_go_of_mem_zero l 0 0 h]
  rw [staz_mean, if_neg hl]
  simp +decide [HARMONICAL, ARITHMETICAL, GEOMETRICAL, hr]

/-- C8 (witness): the harmonic mean over `[1, 2, 0, 4]` fails with
`ZERO_DIVISION_ERROR` and NaN. -/
theorem staz_harmonic_zero_division_witness :
    staz_mean someOps HARMONICAL [1, 2, 0, 4] = (none, ZERO_DIVISION_ERROR) :=
  staz_harmonic_zero_division someOps [1, 2, 0, 4] (by decide)

/-- C9: neither `staz_median` nor `staz_quantile` ever mutates the caller's
array (both sort a scratch copy): for every sample, division and position,
the array after the call is the array before the call. -/
theorem staz_median_quantile_no_mutation :
    ∀ (l : List ℚ) (d : ℤ) (p : ℕ),
      (staz_median l).2.1 = l ∧ (staz_quantile d p l).2.1 = l := by
  intro l d p
  constructor
  · by_cases h : l = []
    · rw [staz_median, if_pos h]
    · rw [staz_median, if_neg h, copy_array, if_neg h]
  · rw [staz_quantile]
    split_ifs with h h2
    · rfl
    · rfl
    · have hl : l ≠ [] := fun he => h (Or.inl he)
      rw [copy_array, if_neg hl]
      simp only
      split_ifs <;> rfl

/-- C10: linear regression computes the closed-form least-squares slope
`(n·Σxy − Σx·Σy) / (n·Σx² − (Σx)²)` and intercept `(Σy − slope·Σx)/n`,
failing with `ZERO_DIVISION_ERROR` and an all-NaN pair exactly when the
denominator is 0; in particular on `x = [1,2,3]`, `y = [2,4,6]` it returns
slope 2 and intercept 0. -/
theorem staz_linear_regression_spec :
    (∀ (x y : List ℚ), x ≠ [] → y.length = x.length →
        (let n : ℚ := x.length
         let sx := x.sum
         let sy := y.sum
         let sxy := ((x.zip y).map (fun p => p.1 * p.2)).sum
         let sxx := (x.map (fun v => v * v)).sum
         if n * sxx - sx * sx = 0 then
           staz_linear_regression x y = (⟨none, none⟩, ZERO_DIVISION_ERROR)
         else
           staz_linear_regression x y =
             (⟨some ((n * sxy - sx * sy) / (n * sxx - sx * sx)),
               some ((sy - (n * sxy - sx * sy) / (n * sxx - sx * sx) * sx) / n)⟩,
              NO_ERROR))) ∧
    staz_linear_regression [1, 2, 3] [2, 4, 6] = (⟨some 2, some 0⟩, NO_ERROR) := by
  constructor
  · intro x y hx hlen
    have hy : y ≠ [] := by
      intro he
      subst he
      exact hx (List.length_eq_zero.mp hlen.symm)
    have hg : ¬(x = [] ∨ y = []) := by
      push_neg
      exact ⟨hx, hy⟩
    rw [staz_linear_regression, if_neg hg, staz_sum_eq x hx, staz_sum_eq y hy]
    simp only [Option.getD_some]
    rw [foldl_add_map (fun p => p.1 * p.2) (x.zip y) 0,
      foldl_add_map (fun v => v * v) x 0, zero_add, zero_add]
    split_ifs with hd
    · rfl
    · rfl
  · norm_num +decide [staz_linear_regression, staz_sum, _staz_sum_recursive,
      _staz_sum_go, List.getD]

/-- C10 (witness): the regression formula evaluated on `[1, 2]`, `[3, 5]`
(slope 2, intercept 1) and the degenerate constant-x pair `[1, 1]`, `[0, 1]`
(`ZERO_DIVISION_ERROR`, all-NaN pair). -/
theorem staz_linear_regression_spec_witness :
    staz_linear_regression [1, 2] [3, 5] = (⟨some 2, some 1⟩, NO_ERROR) ∧
    staz_linear_regression [1, 1] [0, 1] = (⟨none, none⟩, ZERO_DIVISION_ERROR) := by
  constructor
  · have h := staz_linear_regression_spec.1 [1, 2] [3, 5] (by decide) (by decide)
    norm_num [List.zip] at h
    exact h
  · have h := staz_linear_regression_spec.1 [1, 1] [0, 1] (by decide) (by decide)
    norm_num [List.zip] at h
    exact h

end Staz
